import Mathlib

/-!
Verification of the placement decision engine of the Excel AI Assistant
taskpane (src/taskpane/components/App.tsx), shallowly embedded in Lean.

Modelling conventions:
* A cell value is `null`, a text, or a number (host floats are modelled as
  exact rationals; no claim depends on float rounding).
* A sheet is identified with the `values` matrix of its used range, anchored
  at cell A1 (rows of cells, row 0 first); cells outside the matrix read as
  the empty string, exactly as the host API reports unused cells.
* JavaScript string primitives (trim, toLowerCase, toUpperCase, split,
  includes, parseInt, parseFloat, the regexes appearing in the source) are
  re-implemented over character lists for the ASCII inputs the app handles.
* Host round-trips (`Excel.run`, `load`, `context.sync`) disappear: every
  accessor batch becomes a pure read of, or a pure update to, the workbook
  value.  A thrown error becomes an `Except.error` carrying the message and
  the workbook state at throw time.
* Image geometry (pixel placement and sizing of chart images) is outside the
  model; inserting a chart only records the payload and target sheet.
* Apostrophe and backtick characters of the UI message literals are elided;
  messages are otherwise kept verbatim so that distinct outcomes stay
  distinguishable.
-/

namespace ExcelAI

/-- A spreadsheet cell value as delivered by the host API. -/
inductive Val where
  | vnull : Val
  | vstr : String → Val
  | vnum : Rat → Val
deriving Repr, DecidableEq

/-- The `values` matrix of a used range: rows of cells, row 0 first. -/
abbrev Grid := List (List Val)

/-- JavaScript truthiness of a cell value (`h &&` in the source). -/
def truthy : Val → Bool
  | .vnull => false
  | .vstr s => s ≠ ""
  | .vnum q => q ≠ 0

/-- The occupancy test used throughout the source:
    `v !== null && v !== ""`. -/
def isFilled : Val → Bool
  | .vnull => false
  | .vstr s => s ≠ ""
  | .vnum _ => true

/- ---------------- character and string helpers ---------------- -/

def isDigitChar (c : Char) : Bool := 48 ≤ c.toNat && c.toNat ≤ 57

def isUpperAlpha (c : Char) : Bool := 65 ≤ c.toNat && c.toNat ≤ 90

def isLowerAlpha (c : Char) : Bool := 97 ≤ c.toNat && c.toNat ≤ 122

def isAlnumAscii (c : Char) : Bool := isUpperAlpha c || isLowerAlpha c || isDigitChar c

/-- The ASCII whitespace recognised by the modelled `trim` / `\s`. -/
def isSpaceChar (c : Char) : Bool :=
  c.toNat = 32 || c.toNat = 9 || c.toNat = 10 || c.toNat = 13 || c.toNat = 11 || c.toNat = 12

def digitChar (d : Nat) : Char := Char.ofNat (48 + d)

/-- Decimal digits of `n`, most significant first (fuelled so that the
    kernel can evaluate it; the fuel `n+1` always suffices). -/
def natToCharsAux : Nat → Nat → List Char
  | 0, _ => []
  | fuel + 1, n =>
    if n < 10 then [digitChar n] else natToCharsAux fuel (n / 10) ++ [digitChar (n % 10)]

def natToChars (n : Nat) : List Char := natToCharsAux (n + 1) n

/-- JavaScript `ToString` of a non-negative number. -/
def natToString (n : Nat) : String := ⟨natToChars n⟩

/-- JavaScript `ToString` of an integer. -/
def intToString (i : Int) : String :=
  if i < 0 then "-" ++ natToString i.natAbs else natToString i.natAbs

/-- Value of a list of decimal digit characters. -/
def digitsVal (l : List Char) : Nat :=
  l.foldl (fun a c => a * 10 + (c.toNat - 48)) 0

def jsToLower (s : String) : String := ⟨s.data.map Char.toLower⟩

def jsToUpper (s : String) : String := ⟨s.data.map Char.toUpper⟩

/-- JavaScript `String.prototype.trim` (ASCII whitespace model). -/
def jsTrim (s : String) : String :=
  ⟨((s.data.dropWhile isSpaceChar).reverse.dropWhile isSpaceChar).reverse⟩

def isPrefixOfB : List Char → List Char → Bool
  | [], _ => true
  | _ :: _, [] => false
  | a :: as, b :: bs => a = b && isPrefixOfB as bs

/-- JavaScript `hay.includes(needle)` on character lists. -/
def strIncludes (hay needle : List Char) : Bool :=
  if isPrefixOfB needle hay then true
  else
    match hay with
    | [] => false
    | _ :: t => strIncludes t needle

/-- JavaScript `s.startsWith(p)` on strings. -/
def jsStartsWith (s p : String) : Bool := isPrefixOfB p.data s.data

/-- JavaScript `s.split(sep)` for a one-character separator. -/
def splitChar (sep : Char) : List Char → List (List Char)
  | [] => [[]]
  | c :: t =>
    if c = sep then [] :: splitChar sep t
    else
      match splitChar sep t with
      | h :: r => (c :: h) :: r
      | [] => [[c]]

/-- JavaScript `parseInt(s)` (radix-10 behaviour: optional surrounding
    whitespace skip, optional sign, longest run of leading decimal digits;
    the hexadecimal `0x` prefix form never arises for sheet-name suffixes
    and is not modelled).  `none` models `NaN`. -/
def jsParseInt (s : String) : Option Int :=
  let cs := s.data.dropWhile isSpaceChar
  let neg : Bool := cs.headD ' ' = '-'
  let cs := if cs.headD ' ' = '-' || cs.headD ' ' = '+' then cs.tail else cs
  let ds := cs.takeWhile isDigitChar
  if ds.isEmpty then none
  else some (if neg then -(digitsVal ds : Int) else (digitsVal ds : Int))

/-- Lexicographic codepoint comparison (JS `<` on strings; the app only
    compares ASCII sheet names, where codepoints and UTF-16 units agree). -/
def lexLtChars : List Char → List Char → Bool
  | [], [] => false
  | [], _ :: _ => true
  | _ :: _, [] => false
  | a :: as, b :: bs =>
    if a.toNat < b.toNat then true
    else if b.toNat < a.toNat then false
    else lexLtChars as bs

def strLeB (a b : String) : Bool := !(lexLtChars b.data a.data)

def insertSorted (x : String) : List String → List String
  | [] => [x]
  | y :: t => if strLeB x y then x :: y :: t else y :: insertSorted x t

/-- JavaScript `Array.prototype.sort()` on strings (default lexicographic
    comparator, modelled as a stable insertion sort). -/
def jsSortStrings : List String → List String
  | [] => []
  | x :: t => insertSorted x (jsSortStrings t)

/-- First index at which `needle` occurs in `hay` (JS `indexOf`). -/
def findSubIdx (hay needle : List Char) : Option Nat :=
  if isPrefixOfB needle hay then some 0
  else
    match hay with
    | [] => none
    | _ :: t => (findSubIdx t needle).map (· + 1)

/- ---------------- grid reads and writes ---------------- -/

/-- Reading one cell through the accessor (`range.values[0][0]`): cells
    outside the used range read as the empty string. -/
def readCell (g : Grid) (r c : Nat) : Val :=
  ((g.get? r).bind (fun row => row.get? c)).getD (Val.vstr "")

def padRowTo (row : List Val) (n : Nat) : List Val :=
  row ++ List.replicate (n - row.length) (Val.vstr "")

def setInRow (row : List Val) (c : Nat) (v : Val) : List Val :=
  (padRowTo row (c + 1)).set c v

/-- Writing one cell, extending the used range with empty cells as needed. -/
def setCell (g : Grid) (r c : Nat) (v : Val) : Grid :=
  let g' := g ++ List.replicate (r + 1 - g.length) ([] : List Val)
  g'.set r (setInRow (g'.getD r []) c v)

/-- Writing a rectangular block of values with top-left corner `(r0, c0)`
    (`getRangeByIndexes(...).values = rows`; a dimension mismatch between
    the range and the matrix is a host error and is not modelled). -/
def writeBlock (g : Grid) (r0 c0 : Nat) (rows : Grid) : Grid :=
  (rows.enum).foldl
    (fun acc (p : Nat × List Val) =>
      (p.2.enum).foldl
        (fun acc2 (q : Nat × Val) => setCell acc2 (r0 + p.1) (c0 + q.1) q.2) acc)
    g

/- ---------------- cell addresses ---------------- -/

/-- The strict address pattern of the source, `^[A-Z]+[0-9]+$`
    (applied after upper-casing wherever the source uses the `i` flag). -/
def isValidAddr (s : String) : Bool :=
  let ls := s.data.takeWhile isUpperAlpha
  let rest := s.data.drop ls.length
  !ls.isEmpty && !rest.isEmpty && rest.all isDigitChar

/-- Zero-based column index of an `A1`-style address letter run. -/
def colIndexOfLetters (ls : List Char) : Nat :=
  ls.foldl (fun a c => a * 26 + (c.toNat - 64)) 0 - 1

/-- Zero-based column index of a valid address. -/
def addrCol (s : String) : Nat := colIndexOfLetters (s.data.takeWhile isUpperAlpha)

/-- One-based row number of a valid address. -/
def addrRow (s : String) : Nat :=
  digitsVal (s.data.drop (s.data.takeWhile isUpperAlpha).length)

/-- Convert a 1-based column index to its letter name (source helper
    `indexToColumnName`; fuelled, `index+1` units always suffice). -/
def idxToColAux : Nat → Nat → List Char → List Char
  | 0, _, acc => acc
  | fuel + 1, index, acc =>
    if index = 0 then acc
    else idxToColAux fuel ((index - 1) / 26) (Char.ofNat (65 + (index - 1) % 26) :: acc)

def indexToColumnName (index : Nat) : String := ⟨idxToColAux (index + 1) index []⟩

/- ---------------- numeric extraction (writeResult) ---------------- -/

/-- Attempt of the regex `[-+]?[0-9]*\.?[0-9]+` at the start of `l`
    (greedy with backtracking, as the JS engine executes it). -/
def matchNumAt (l : List Char) : Option (List Char) :=
  let (sgn, rest) :=
    match l with
    | c :: t => if c = '-' || c = '+' then ([c], t) else (([] : List Char), l)
    | [] => (([] : List Char), [])
  let d1 := rest.takeWhile isDigitChar
  let r1 := rest.drop d1.length
  match r1 with
  | '.' :: t =>
    let d2 := t.takeWhile isDigitChar
    if d2.isEmpty then (if d1.isEmpty then none else some (sgn ++ d1))
    else some (sgn ++ d1 ++ '.' :: d2)
  | _ => if d1.isEmpty then none else some (sgn ++ d1)

def firstNumMatchAux : List Char → Option (List Char)
  | [] => none
  | c :: t =>
    match matchNumAt (c :: t) with
    | some m => some m
    | none => firstNumMatchAux t

/-- Leftmost match of `/[-+]?[0-9]*\.?[0-9]+/` in `s` (`note.match(...)`). -/
def firstNumMatch (s : String) : Option String :=
  (firstNumMatchAux s.data).map (fun cs => ⟨cs⟩)

/-- `parseFloat` of a string matched by the numeric regex, as an exact
    rational. -/
def parseDecimal (cs : List Char) : Rat :=
  let (neg, cs) :=
    match cs with
    | '-' :: t => (true, t)
    | '+' :: t => (false, t)
    | _ => (false, cs)
  let d1 := cs.takeWhile isDigitChar
  let rest := cs.drop d1.length
  let d2 :=
    match rest with
    | '.' :: t => t.takeWhile isDigitChar
    | _ => []
  let mag := mkRat (digitsVal (d1 ++ d2) : Int) (10 ^ d2.length)
  if neg then -mag else mag

/-- The single-cell value `writeResult` stores for a note: the parsed first
    numeric substring if one exists, else the full note text. -/
def extractedVal (note : String) : Val :=
  match firstNumMatch note with
  | some m => Val.vnum (parseDecimal m.data)
  | none => Val.vstr note

/- ---------------- results-sheet naming ---------------- -/

/-- `m.split("_").pop()` followed by `parseInt(p || "0")` and the NaN guard,
    as in the sheet-minting loop of `writeResult`. -/
def suffixNumOf (m : String) : Int :=
  let p := ((splitChar '_' m.data).getLastD []).asString
  let p := if p = "" then "0" else p
  match jsParseInt p with
  | some v => v
  | none => 0

/-- Next minted results-sheet name (`AI_Results_<n>`), scanning the live
    list of sheet names, as in `writeResult` / `handlePlaceOnResultsSheet`. -/
def nextResultsName (names : List String) : String :=
  let ms := names.filter (fun n => jsStartsWith n "AI_Results")
  let next : Int :=
    if ms.length > 0 then
      match ms.map suffixNumOf with
      | [] => 1
      | h :: t => t.foldl max h + 1
    else 1
  "AI_Results_" ++ intToString next

/- ---------------- findPlacementCell ---------------- -/

structure PlacementResult where
  found : Bool
  cellAddress : Option String
  occupied : Bool
deriving Repr, DecidableEq

/-- JavaScript `String(h)` on a cell value.  Integral numbers render
    exactly; non-integral JS float formatting is not reproduced (no header
    cell the claims touch is numeric). -/
def valToString : Val → String
  | .vnull => "null"
  | .vstr s => s
  | .vnum q =>
    if q.den = 1 then intToString q.num
    else intToString q.num ++ "/" ++ natToString q.den

/-- The header-row scan of `findPlacementCell`: first index whose cell is
    truthy and whose text case-insensitively contains the hint. -/
def headerMatchIdx (columnName : String) (values : Grid) : Option Nat :=
  (values.headD []).findIdx?
    (fun h => truthy h && strIncludes (jsToLower (valToString h)).data (jsToLower columnName).data)

/-- `v !== null && v !== "" && typeof v !== "undefined"` at row `i`,
    column `col` of the used-range matrix. -/
def cellFilledAt (values : Grid) (i col : Nat) : Bool :=
  match (values.getD i []).get? col with
  | some v => isFilled v
  | none => false

/-- The `lastRow` loop of `findPlacementCell`: the last data-row index
    (scanning rows 1..) holding a non-empty, non-null value; 0 if none. -/
def lastFilledIndex (values : Grid) (col : Nat) : Nat :=
  (List.range values.length).foldl
    (fun last i => if 1 ≤ i ∧ cellFilledAt values i col then i else last) 0

/-- `findPlacementCell(columnName)` over the active sheet's used-range
    matrix.  The column letter is `String.fromCharCode(65 + targetIndex)`,
    single character, exactly as in the source (only safe for A–Z).  The
    final occupancy read targets the cell the computed address denotes. -/
def findPlacementCell (columnName : String) (values : Grid) : PlacementResult :=
  if values.isEmpty then { found := false, cellAddress := some "A1", occupied := false }
  else
    match headerMatchIdx columnName values with
    | none => { found := false, cellAddress := none, occupied := false }
    | some targetIndex =>
      let lastRow := lastFilledIndex values targetIndex
      let nextRow := lastRow + 2
      let colLetter := Char.ofNat (65 + targetIndex)
      let cellAddress : String := ⟨[colLetter]⟩ ++ natToString nextRow
      let cellValue := readCell values (nextRow - 1) targetIndex
      { found := true, cellAddress := some cellAddress, occupied := isFilled cellValue }

/- ---------------- results-sheet note cleaning ---------------- -/

/-- `.replace(/^[^a-zA-Z0-9]+/, "")`. -/
def stripLeadingSymbols (cs : List Char) : List Char :=
  cs.dropWhile (fun c => !isAlnumAscii c)

/-- `.replace(/\n+/g, " ")`: every maximal newline run becomes one space. -/
def collapseNewlines : List Char → List Char
  | [] => []
  | ['\n'] => [' ']
  | '\n' :: '\n' :: t => collapseNewlines ('\n' :: t)
  | '\n' :: c :: t => ' ' :: collapseNewlines (c :: t)
  | c :: t => c :: collapseNewlines t

/-- The descriptive-text cleaning of `handlePlaceOnResultsSheet`. -/
def cleanNote (note : String) : String :=
  jsTrim ⟨collapseNewlines (stripLeadingSymbols note.data)⟩

/- ---------------- workbook ---------------- -/

/-- The workbook: named sheets (each its used-range matrix), the index of
    the active sheet, and the inserted chart images (target sheet name, if
    any, and payload; pixel geometry is outside the model). -/
structure Workbook where
  sheets : List (String × Grid)
  active : Nat := 0
  charts : List (Option String × String) := []
deriving Repr, DecidableEq

def gridAt (wb : Workbook) (i : Nat) : Grid :=
  ((wb.sheets.get? i).map (fun sp => sp.2)).getD []

def nameAt (wb : Workbook) (i : Nat) : String :=
  ((wb.sheets.get? i).map (fun sp => sp.1)).getD ""

def setGridAt (wb : Workbook) (i : Nat) (g : Grid) : Workbook :=
  { wb with sheets := wb.sheets.set i (nameAt wb i, g) }

def activeGrid (wb : Workbook) : Grid := gridAt wb wb.active

def sheetNames (wb : Workbook) : List String := wb.sheets.map (fun sp => sp.1)

/-- `sheets.add(name)` (appends an empty sheet). -/
def addSheet (wb : Workbook) (name : String) : Workbook :=
  { wb with sheets := wb.sheets ++ [(name, ([] : Grid))] }

def gridOfName (wb : Workbook) (name : String) : Grid :=
  ((wb.sheets.find? (fun sp => sp.1 == name)).map (fun sp => sp.2)).getD []

def setGridOfName (wb : Workbook) (name : String) (g : Grid) : Workbook :=
  { wb with sheets := wb.sheets.map (fun sp => if sp.1 == name then (sp.1, g) else sp) }

def hasSheet (wb : Workbook) (name : String) : Bool :=
  (wb.sheets.find? (fun sp => sp.1 == name)).isSome

/-- Strip a `data:...;base64,` prefix from an image payload, as in
    `insertChartImageOnSheet`. -/
def stripDataUrl (s : String) : String :=
  match findSubIdx s.data "base64,".data with
  | some i => ⟨s.data.drop (i + 7)⟩
  | none => s

/-- `insertChartImageOnSheet(chartBase64, sheetName)`: resolves (creating if
    absent) the target sheet when one is named, strips the data-URL prefix
    and records the inserted image.  Pixel positioning, sizing and placement
    mode are outside the model. -/
def insertChartImageOnSheet (wb : Workbook) (sheetName : Option String) (chartBase64 : String) :
    Workbook :=
  let wb1 :=
    match sheetName with
    | some nm => if hasSheet wb nm then wb else addSheet wb nm
    | none => wb
  { wb1 with charts := wb1.charts ++ [(sheetName, stripDataUrl chartBase64)] }

/- ---------------- writeResult ---------------- -/

/-- The workbook after the sheet-selection preamble of `writeResult`
    (a new results sheet is created and flushed before the address is
    validated, so an error thrown later still leaves it created). -/
def wbAfterSheetChoice (wb : Workbook) (newSheet : Bool) : Workbook :=
  if newSheet then addSheet wb (nextResultsName (sheetNames wb)) else wb

/-- Index of the sheet `writeResult` writes to. -/
def writeTargetIdx (wb : Workbook) (newSheet : Bool) : Nat :=
  if newSheet then wb.sheets.length else wb.active

/-- The address `writeResult` actually uses:
    `cellAddress ? cellAddress.toUpperCase() : "A1"` (an empty string is
    falsy and falls back to `"A1"` too). -/
def writeAddr (cellAddress : Option String) : String :=
  match cellAddress with
  | some a => if a = "" then "A1" else jsToUpper a
  | none => "A1"

/-- `writeResult(note, newSheet, cellAddress?, overwrite)`.  Errors carry
    the thrown message together with the workbook state at throw time
    (sheet creation precedes both throws).  Formatting effects (bold,
    alignment, autofit) are presentation-only and are not modelled. -/
def writeResult (note : String) (newSheet : Bool) (cellAddress : Option String)
    (overwrite : Bool) (wb : Workbook) : Except (String × Workbook) Workbook :=
  let wb1 := wbAfterSheetChoice wb newSheet
  let sidx := writeTargetIdx wb newSheet
  let addr := writeAddr cellAddress
  if isValidAddr addr then
    let g := gridAt wb1 sidx
    let cur := readCell g (addrRow addr - 1) (addrCol addr)
    if isFilled cur && !overwrite then
      Except.error ("Cell " ++ addr ++ " already contains data.", wb1)
    else
      Except.ok (setGridAt wb1 sidx (setCell g (addrRow addr - 1) (addrCol addr) (extractedVal note)))
  else
    Except.error ("Invalid cell address: " ++ addr, wb1)

/- ---------------- upload merge helpers ---------------- -/

/-- The `reduceRight` scan of `appendUploadToActiveSheet` over the first
    row: index of the rightmost cell with `val !== "" && val !== null`,
    `none` for `-1`. -/
def lastFilledInRow (row : List Val) : Option Nat :=
  ((row.enum.filter (fun p => isFilled p.2)).getLast?).map (fun p => p.1)

/-- `appendUploadToActiveSheet(headers, dataRows)` on the active sheet's
    used-range matrix: always merges horizontally, headers at row 0 starting
    one column right of the last filled header cell, data rows below. -/
def appendUploadToActiveSheet (headers : List String) (dataRows : Grid) (g : Grid) :
    Grid × String :=
  let firstRow := g.headD []
  let startColumn :=
    match lastFilledInRow firstRow with
    | some lastFilled => lastFilled + 1
    | none => 0
  let g1 := writeBlock g 0 startColumn [headers.map Val.vstr]
  let g2 := if dataRows.length > 0 then writeBlock g1 1 startColumn dataRows else g1
  (g2, indexToColumnName (startColumn + 1) ++ "1")

/- ---------------- placement state machine ---------------- -/

/-- `awaitingOverwrite`: the deferred destination the user must confirm. -/
structure OverwriteInfo where
  sheet : Option String := none
  addr : String
  chart : Bool := false
deriving Repr, DecidableEq

/-- The `pendingPlacement` slot. -/
structure PendingPlacement where
  note : String
  chart : Option String := none
  suggestedColumn : Option String := none
  awaitingCell : Bool := false
  awaitingOverwrite : Option OverwriteInfo := none
deriving Repr, DecidableEq

inductive Role where
  | user : Role
  | ai : Role
deriving Repr, DecidableEq

structure Message where
  role : Role
  text : String
  chart : Option String := none
deriving Repr, DecidableEq

def aiMsg (t : String) : Message := { role := Role.ai, text := t }

def userMsg (t : String) : Message := { role := Role.user, text := t }

/-- Outcome of one placement-action handler: the final pending slot (after
    every `setPendingPlacement` / `clearPendingPlacement` of the call,
    including the ones in `finally` blocks), the workbook, and the chat
    messages pushed. -/
structure HandlerResult where
  pending : Option PendingPlacement
  wb : Workbook
  messages : List Message
deriving Repr, DecidableEq

def msgFinishPlacement : String := "⚠️ Finish placement before sending a new command."

def msgOverwriteReprompt : String :=
  "❌ To confirm overwrite type overwrite (or overwrite <CELL>)."

def msgInvalidCellAddr : String :=
  "❌ Invalid cell address. Example: C5, AA10. Please enter again."

def occupiedSuggestedMsg (addr : String) : String :=
  "⚠️ Suggested cell " ++ addr ++
    " is occupied. Type overwrite " ++ addr ++ " in the input and press Enter to force overwrite."

def occupiedCellMsg (addr : String) : String :=
  "⚠️ Cell " ++ addr ++
    " is occupied. Type overwrite " ++ addr ++ " in the input and press Enter to force overwrite."

/-- `handlePlaceInExcelForChartOrBelow` (Place in Excel / Place below data).
    Every exit path of the source runs the `finally` block, whose
    unconditional `clearPendingPlacement()` empties the slot — including the
    occupied branch that has just stored an `awaitingOverwrite` value, so no
    exit leaves a pending item behind. -/
def handlePlaceInExcelForChartOrBelow (p : PendingPlacement) (wb : Workbook) : HandlerResult :=
  match p.chart with
  | some ch =>
    { pending := none, wb := insertChartImageOnSheet wb none ch,
      messages := [aiMsg "✅ Chart placed at the top of the sheet (moveable chart)."] }
  | none =>
    match p.suggestedColumn with
    | some colHint =>
      let placement := findPlacementCell colHint (activeGrid wb)
      if !placement.found then
        { pending := none, wb := wb,
          messages := [aiMsg ("❌ Could not find column " ++ colHint ++ ".")] }
      else if placement.occupied then
        let ca := placement.cellAddress.getD "null"
        { pending := none, wb := wb, messages := [aiMsg (occupiedSuggestedMsg ca)] }
      else
        match writeResult p.note false placement.cellAddress false wb with
        | Except.ok wb' =>
          { pending := none, wb := wb',
            messages := [aiMsg ("✅ Result placed at " ++ placement.cellAddress.getD "null")] }
        | Except.error (m, wb') =>
          { pending := none, wb := wb', messages := [aiMsg ("⚠️ Failed to place: " ++ m)] }
    | none =>
      match writeResult p.note false (some "A1") false wb with
      | Except.ok wb' =>
        { pending := none, wb := wb', messages := [aiMsg "✅ Result placed at A1 (fallback)."] }
      | Except.error (m, wb') =>
        { pending := none, wb := wb', messages := [aiMsg ("⚠️ Failed to place: " ++ m)] }

/-- `handlePlaceOnResultsSheet(createNew)`.  When no results sheet exists or
    `createNew` is requested, a non-chart item is delegated to
    `writeResult(note, true, "A1")` (numeric extraction, fresh sheet); only
    an existing target sheet gets the cleaned-text append. -/
def handlePlaceOnResultsSheet (p : PendingPlacement) (createNew : Bool) (wb : Workbook) :
    HandlerResult :=
  let names := sheetNames wb
  let ms := names.filter (fun n => jsStartsWith n "AI_Results")
  let targetSheetName : Option String :=
    if ms.isEmpty || createNew then none else (jsSortStrings ms).getLast?
  if targetSheetName.isNone || createNew then
    match p.chart with
    | some ch =>
      let newName := nextResultsName names
      let wb1 := addSheet wb newName
      let wb2 := insertChartImageOnSheet wb1 (some newName) ch
      { pending := none, wb := wb2, messages := [aiMsg ("✅ Chart placed on " ++ newName)] }
    | none =>
      match writeResult p.note true (some "A1") false wb with
      | Except.ok wb' =>
        { pending := none, wb := wb',
          messages := [aiMsg "✅ Result created on new results sheet."] }
      | Except.error (m, wb') =>
        { pending := some p, wb := wb',
          messages := [aiMsg ("⚠️ Failed to place on results sheet: " ++ m)] }
  else
    let target := targetSheetName.getD ""
    match p.chart with
    | some ch =>
      { pending := none, wb := insertChartImageOnSheet wb (some target) ch,
        messages := [aiMsg ("✅ Chart placed on " ++ target)] }
    | none =>
      let g := gridOfName wb target
      let row := g.length
      let putCell := "A" ++ natToString (row + 1)
      let descriptiveText := cleanNote p.note
      let wb' := setGridOfName wb target (setCell g row 0 (Val.vstr descriptiveText))
      { pending := none, wb := wb',
        messages := [aiMsg ("✅ Result appended to " ++ target ++ " at " ++ putCell)] }

/- ---------------- handleSend ---------------- -/

/-- A parsed `/chat` response (`{ok, note, chart}`), supplied as an oracle:
    transport itself is an external collaborator. -/
structure BackendData where
  ok : Bool
  note : Option String := none
  chart : Option String := none
deriving Repr, DecidableEq

/-- `x || dflt` for an optional string (empty string is falsy). -/
def jsOr (o : Option String) (dflt : String) : String :=
  match o with
  | some s => if s = "" then dflt else s
  | none => dflt

/-- Attempt of `/sum\s+(\w+)/i` at the start of `l`: `sum` (any case), at
    least one whitespace, then the captured word-character run. -/
def matchSumAt : List Char → Option (List Char)
  | c1 :: c2 :: c3 :: rest =>
    if c1.toLower = 's' && c2.toLower = 'u' && c3.toLower = 'm' then
      let ws := rest.takeWhile isSpaceChar
      if ws.isEmpty then none
      else
        let w := (rest.drop ws.length).takeWhile (fun c => isAlnumAscii c || c = '_')
        if w.isEmpty then none else some w
    else none
  | _ => none

def extractSumColumnAux : List Char → Option (List Char)
  | [] => none
  | c :: t =>
    match matchSumAt (c :: t) with
    | some w => some w
    | none => extractSumColumnAux t

/-- The suggested-column capture of `handleSend`:
    `userText.match(/sum\s+(\w+)/i)`. -/
def extractSumColumn (s : String) : Option String :=
  (extractSumColumnAux s.data).map (fun cs => ⟨cs⟩)

/-- Outcome of one `handleSend` call: final pending slot, workbook, pushed
    messages, whether a `/chat` request was issued, and whether the input
    box was cleared. -/
structure SendResult where
  pending : Option PendingPlacement
  wb : Workbook
  messages : List Message
  backendCalled : Bool
  inputCleared : Bool
deriving Repr, DecidableEq

/-- `handleSend()`.  Branches, in source order: (1) awaiting overwrite
    confirmation, (2) awaiting a cell address, (3) a pending placement
    blocks new commands, (4) normal command flow to the backend (`resp` is
    the oracle for the response; `none` models a missing/failed response).
    In branch 2 the occupied sub-branch stores an `awaitingOverwrite` value
    but the unconditional `clearPendingPlacement()` that follows the
    accessor round clears the slot again, so its net pending state is
    `none`. -/
def handleSend (pending : Option PendingPlacement) (wb : Workbook) (input : String)
    (resp : Option BackendData) : SendResult :=
  match pending with
  | some p =>
    match p.awaitingOverwrite with
    | some o =>
      let text := jsToLower (jsTrim input)
      if text = "overwrite" || text = "overwrite " ++ jsToLower o.addr then
        match p.chart with
        | some ch =>
          { pending := none, wb := insertChartImageOnSheet wb none ch,
            messages := [aiMsg "✅ Chart placed (overwrite flow)."],
            backendCalled := false, inputCleared := true }
        | none =>
          match writeResult p.note false (some o.addr) true wb with
          | Except.ok wb' =>
            { pending := none, wb := wb',
              messages := [aiMsg ("✅ Overwrote and placed result at " ++ o.addr ++ ".")],
              backendCalled := false, inputCleared := true }
          | Except.error (m, wb') =>
            { pending := some p, wb := wb',
              messages := [aiMsg ("⚠️ Failed to overwrite: " ++ m)],
              backendCalled := false, inputCleared := true }
      else
        { pending := some p, wb := wb, messages := [aiMsg msgOverwriteReprompt],
          backendCalled := false, inputCleared := true }
    | none =>
      if p.awaitingCell then
        let addr := jsToUpper (jsTrim input)
        if !isValidAddr addr then
          { pending := some p, wb := wb, messages := [aiMsg msgInvalidCellAddr],
            backendCalled := false, inputCleared := true }
        else
          let value := readCell (activeGrid wb) (addrRow addr - 1) (addrCol addr)
          if isFilled value then
            { pending := none, wb := wb, messages := [aiMsg (occupiedCellMsg addr)],
              backendCalled := false, inputCleared := true }
          else
            match p.chart with
            | some ch =>
              { pending := none, wb := insertChartImageOnSheet wb none ch,
                messages := [aiMsg ("✅ Chart placed (approx) near " ++ addr ++ ".")],
                backendCalled := false, inputCleared := true }
            | none =>
              match writeResult p.note false (some addr) false wb with
              | Except.ok wb' =>
                { pending := none, wb := wb',
                  messages := [aiMsg ("✅ Result placed at " ++ addr ++ ".")],
                  backendCalled := false, inputCleared := true }
              | Except.error (m, wb') =>
                { pending := some p, wb := wb',
                  messages := [aiMsg ("⚠️ Failed to place: " ++ m)],
                  backendCalled := false, inputCleared := true }
      else
        { pending := some p, wb := wb, messages := [aiMsg msgFinishPlacement],
          backendCalled := false, inputCleared := false }
  | none =>
    if jsTrim input = "" then
      { pending := none, wb := wb, messages := [], backendCalled := false,
        inputCleared := false }
    else
      let userText := jsTrim input
      match resp with
      | none =>
        { pending := none, wb := wb,
          messages := [userMsg userText, aiMsg "❌ No response from backend."],
          backendCalled := true, inputCleared := true }
      | some d =>
        if !d.ok then
          { pending := none, wb := wb,
            messages := [userMsg userText, aiMsg (jsOr d.note "❌ Backend returned an error.")],
            backendCalled := true, inputCleared := true }
        else
          let aiText := jsOr d.note "✅ Done"
          let chart := match d.chart with | some "" => none | x => x
          { pending := some { note := aiText, chart := chart,
                              suggestedColumn := extractSumColumn userText,
                              awaitingCell := false, awaitingOverwrite := none },
            wb := wb,
            messages := [userMsg userText, { role := Role.ai, text := aiText, chart := chart }],
            backendCalled := true, inputCleared := true }

/- ---------------- derived observables used by the theorems ---------------- -/

/-- The cell `writeResult` will inspect before writing. -/
def targetCellOf (ca : Option String) (ns : Bool) (wb : Workbook) : Val :=
  readCell (gridAt (wbAfterSheetChoice wb ns) (writeTargetIdx wb ns))
    (addrRow (writeAddr ca) - 1) (addrCol (writeAddr ca))

/-- The spec claim's own reading of the `findPlacementCell` destination
    row: the last row holding a non-empty value in the column, counted
    1-indexed with the header row as row 1 (0 when the column is empty). -/
def claimedLastNonEmptyRow1 (values : Grid) (col : Nat) : Nat :=
  (List.range values.length).foldl
    (fun last i => if cellFilledAt values i col then i + 1 else last) 0

/- ---------------- basic lemmas: digits and decimal strings ---------------- -/

theorem toNat_ofNat_valid (n : Nat) (h : n < 55296) : (Char.ofNat n).toNat = n := by
  have hv : n.isValidChar := Or.inl h
  rw [Char.ofNat, dif_pos hv]
  rfl

theorem digitChar_toNat (d : Nat) (h : d < 10) : (digitChar d).toNat = 48 + d := by
  unfold digitChar
  exact toNat_ofNat_valid (48 + d) (by omega)

theorem isDigitChar_digitChar (d : Nat) (h : d < 10) : isDigitChar (digitChar d) = true := by
  simp only [isDigitChar, digitChar_toNat d h, Bool.and_eq_true, decide_eq_true_eq]
  omega

theorem not_upper_of_digit (c : Char) (h : isDigitChar c = true) : isUpperAlpha c = false := by
  simp only [isDigitChar, Bool.and_eq_true, decide_eq_true_eq] at h
  simp only [isUpperAlpha, Bool.and_eq_false_iff, decide_eq_false_iff_not]
  omega

theorem not_space_of_digit (c : Char) (h : isDigitChar c = true) : isSpaceChar c = false := by
  simp only [isDigitChar, Bool.and_eq_true, decide_eq_true_eq] at h
  simp only [isSpaceChar, Bool.or_eq_false_iff, decide_eq_false_iff_not]
  omega

theorem digit_ne_of_toNat (c : Char) (n : Nat) (h : isDigitChar c = true)
    (hn : n < 48 ∨ 57 < n) : c.toNat ≠ n := by
  simp only [isDigitChar, Bool.and_eq_true, decide_eq_true_eq] at h
  omega

theorem digit_ne_underscore (c : Char) (h : isDigitChar c = true) : c ≠ '_' := by
  intro hc
  rw [hc] at h
  exact absurd h (by decide)

theorem digit_ne_minus (c : Char) (h : isDigitChar c = true) : c ≠ '-' := by
  intro hc
  rw [hc] at h
  exact absurd h (by decide)

theorem digit_ne_plus (c : Char) (h : isDigitChar c = true) : c ≠ '+' := by
  intro hc
  rw [hc] at h
  exact absurd h (by decide)

theorem digitsVal_append_singleton (l : List Char) (c : Char) :
    digitsVal (l ++ [c]) = digitsVal l * 10 + (c.toNat - 48) := by
  simp [digitsVal, List.foldl_append]

theorem natToCharsAux_spec (fuel : Nat) :
    ∀ n, n < fuel →
      (∀ c ∈ natToCharsAux fuel n, isDigitChar c = true) ∧
      natToCharsAux fuel n ≠ [] ∧
      digitsVal (natToCharsAux fuel n) = n := by
  induction fuel with
  | zero => intro n hn; omega
  | succ fuel ih =>
    intro n hn
    by_cases h10 : n < 10
    · simp only [natToCharsAux, if_pos h10]
      refine ⟨?_, by simp, ?_⟩
      · intro c hc
        simp only [List.mem_singleton] at hc
        subst hc
        exact isDigitChar_digitChar n h10
      · simp [digitsVal, digitChar_toNat n h10]
    · have hdiv : n / 10 < fuel := by
        have h1 : n / 10 < n := Nat.div_lt_self (by omega) (by omega)
        omega
      obtain ⟨ihd, ihne, ihval⟩ := ih (n / 10) hdiv
      simp only [natToCharsAux, if_neg h10]
      refine ⟨?_, by simp, ?_⟩
      · intro c hc
        rcases List.mem_append.mp hc with hc | hc
        · exact ihd c hc
        · simp only [List.mem_singleton] at hc
          subst hc
          exact isDigitChar_digitChar _ (Nat.mod_lt _ (by omega))
      · rw [digitsVal_append_singleton, ihval,
          digitChar_toNat _ (Nat.mod_lt _ (by omega))]
        omega

theorem natToChars_digits (n : Nat) : ∀ c ∈ natToChars n, isDigitChar c = true :=
  (natToCharsAux_spec (n + 1) n (by omega)).1

theorem natToChars_ne_nil (n : Nat) : natToChars n ≠ [] :=
  (natToCharsAux_spec (n + 1) n (by omega)).2.1

theorem digitsVal_natToChars (n : Nat) : digitsVal (natToChars n) = n :=
  (natToCharsAux_spec (n + 1) n (by omega)).2.2

theorem natToString_inj (m n : Nat) (h : natToString m = natToString n) : m = n := by
  have : natToChars m = natToChars n := congrArg String.data h
  calc m = digitsVal (natToChars m) := (digitsVal_natToChars m).symm
    _ = digitsVal (natToChars n) := by rw [this]
    _ = n := digitsVal_natToChars n

theorem intToString_natCast (n : Nat) : intToString (n : Int) = natToString n := by
  simp [intToString]

/- ---------------- basic lemmas: takeWhile / dropWhile on clean lists ------- -/

theorem takeWhile_of_all {α : Type} (p : α → Bool) (l : List α)
    (h : ∀ c ∈ l, p c = true) : l.takeWhile p = l := by
  induction l with
  | nil => rfl
  | cons a t ih =>
    rw [List.takeWhile_cons, if_pos (h a (by simp))]
    rw [ih (fun c hc => h c (by simp [hc]))]

theorem takeWhile_nil_of_head {α : Type} (p : α → Bool) (a : α) (t : List α)
    (h : p a = false) : (a :: t).takeWhile p = [] := by
  rw [List.takeWhile_cons, if_neg (by simp [h])]

theorem dropWhile_of_head {α : Type} (p : α → Bool) (a : α) (t : List α)
    (h : p a = false) : (a :: t).dropWhile p = a :: t := by
  rw [List.dropWhile_cons, if_neg (by simp [h])]

/-- `jsParseInt` of a non-empty all-digit string is its decimal value. -/
theorem jsParseInt_digits (ds : List Char) (hne : ds ≠ [])
    (hd : ∀ c ∈ ds, isDigitChar c = true) :
    jsParseInt ⟨ds⟩ = some (digitsVal ds : Int) := by
  obtain ⟨a, t, rfl⟩ := List.exists_cons_of_ne_nil hne
  have ha : isDigitChar a = true := hd a (by simp)
  have hm : a ≠ '-' := digit_ne_minus a ha
  have hp : a ≠ '+' := digit_ne_plus a ha
  unfold jsParseInt
  rw [show (String.mk (a :: t)).data = a :: t from rfl]
  rw [dropWhile_of_head _ _ _ (not_space_of_digit a ha)]
  simp only [List.headD_cons, hm, hp, if_neg, Bool.or_self, decide_eq_true_eq]
  rw [if_neg (by simp [hm, hp, ha])]
  simp [hm, hp, takeWhile_of_all _ _ hd]

/- ---------------- basic lemmas: splitChar and sheet-name suffixes --------- -/

theorem splitChar_ne_nil (sep : Char) (l : List Char) : splitChar sep l ≠ [] := by
  cases l with
  | nil => simp [splitChar]
  | cons c t =>
    by_cases h : c = sep
    · simp [splitChar, h]
    · simp only [splitChar, if_neg h]
      cases hs : splitChar sep t with
      | nil => simp
      | cons a r => simp

theorem splitChar_no_sep (sep : Char) (l : List Char)
    (h : ∀ c ∈ l, c ≠ sep) : splitChar sep l = [l] := by
  induction l with
  | nil => rfl
  | cons c t ih =>
    have hc : c ≠ sep := h c (by simp)
    simp only [splitChar, if_neg hc]
    rw [ih (fun x hx => h x (by simp [hx]))]

theorem splitChar_append_sep (sep : Char) (l1 l2 : List Char) :
    ∃ pre, pre ≠ [] ∧ splitChar sep (l1 ++ sep :: l2) = pre ++ splitChar sep l2 := by
  induction l1 with
  | nil =>
    exact ⟨[[]], by simp, by simp [splitChar]⟩
  | cons c t ih =>
    obtain ⟨pre, hpre, heq⟩ := ih
    by_cases h : c = sep
    · refine ⟨[] :: pre, by simp, ?_⟩
      simp only [List.cons_append, splitChar, if_pos h, List.append_eq]
      rw [heq]
    · obtain ⟨p, pr, rfl⟩ := List.exists_cons_of_ne_nil hpre
      refine ⟨(c :: p) :: pr, by simp, ?_⟩
      simp only [List.cons_append, splitChar, if_neg h, List.append_eq]
      rw [heq]
      simp

theorem getLastD_append_of_ne_nil {α : Type} (l1 l2 : List α) (d : α) (h : l2 ≠ []) :
    (l1 ++ l2).getLastD d = l2.getLastD d := by
  rw [List.getLastD_eq_getLast?, List.getLastD_eq_getLast?, List.getLast?_append]
  cases hl : l2.getLast? with
  | none =>
    exact absurd (List.getLast?_eq_none_iff.mp hl) h
  | some a => simp

/-- `suffixNumOf` of a well-formed results-sheet name. -/
theorem suffixNumOf_format (k : Nat) :
    suffixNumOf ("AI_Results_" ++ natToString k) = (k : Int) := by
  have hdata : ("AI_Results_" ++ natToString k).data
      = ['A', 'I', '_', 'R', 'e', 's', 'u', 'l', 't', 's'] ++ '_' :: natToChars k := rfl
  have hnosep : ∀ c ∈ natToChars k, c ≠ '_' :=
    fun c hc => digit_ne_underscore c (natToChars_digits k c hc)
  obtain ⟨pre, hpre, hsplit⟩ :=
    splitChar_append_sep '_' ['A', 'I', '_', 'R', 'e', 's', 'u', 'l', 't', 's'] (natToChars k)
  unfold suffixNumOf
  rw [hdata, hsplit, splitChar_no_sep '_' _ hnosep,
    getLastD_append_of_ne_nil _ _ _ (by simp)]
  have hlast : ([natToChars k] : List (List Char)).getLastD ([] : List Char) = natToChars k := rfl
  rw [hlast]
  have hne : natToChars k ≠ [] := natToChars_ne_nil k
  have hasStr : (natToChars k).asString = (⟨natToChars k⟩ : String) := rfl
  rw [hasStr]
  have hif : (if (⟨natToChars k⟩ : String) = "" then "0" else (⟨natToChars k⟩ : String))
      = (⟨natToChars k⟩ : String) := by
    rw [if_neg (by simpa [String.ext_iff] using hne)]
  dsimp only
  rw [hif]
  rw [jsParseInt_digits (natToChars k) hne (natToChars_digits k)]
  rw [digitsVal_natToChars]

/- ---------------- basic lemmas: foldl max ---------------- -/

theorem foldl_max_mem (t : List Int) (h : Int) : t.foldl max h ∈ h :: t := by
  induction t generalizing h with
  | nil => simp
  | cons x r ih =>
    simp only [List.foldl_cons]
    rcases List.mem_cons.mp (ih (max h x)) with hm | hm
    · rcases max_choice h x with hc | hc
      · rw [hm, hc]; exact List.mem_cons_self _ _
      · rw [hm, hc]; exact List.mem_cons_of_mem _ (List.mem_cons_self _ _)
    · exact List.mem_cons_of_mem _ (List.mem_cons_of_mem _ hm)

theorem le_foldl_max (t : List Int) : ∀ h x, x ∈ h :: t → x ≤ t.foldl max h := by
  induction t with
  | nil => intro h x hx; simp at hx; simp [hx]
  | cons y r ih =>
    intro h x hx
    simp only [List.foldl_cons]
    rcases List.mem_cons.mp hx with rfl | hm
    · exact le_trans (le_max_left x y) (ih (max x y) (max x y) (List.mem_cons_self _ _))
    · rcases List.mem_cons.mp hm with rfl | hm2
      · exact le_trans (le_max_right h x) (ih (max h x) (max h x) (List.mem_cons_self _ _))
      · exact ih (max h y) x (List.mem_cons_of_mem _ hm2)

/- ---------------- basic lemmas: last filled row scan ---------------- -/

theorem cellFilledAt_ge_length (values : Grid) (col j : Nat) (h : values.length ≤ j) :
    cellFilledAt values j col = false := by
  unfold cellFilledAt
  rw [List.getD_eq_default _ _ h]
  simp

theorem foldl_lastFilled_spec (values : Grid) (col : Nat) : ∀ n,
    ((List.range n).foldl
        (fun last i => if 1 ≤ i ∧ cellFilledAt values i col then i else last) 0 = 0 ∧
      ∀ j, 1 ≤ j → j < n → cellFilledAt values j col = false) ∨
    (1 ≤ (List.range n).foldl
        (fun last i => if 1 ≤ i ∧ cellFilledAt values i col then i else last) 0 ∧
      cellFilledAt values
        ((List.range n).foldl
          (fun last i => if 1 ≤ i ∧ cellFilledAt values i col then i else last) 0) col = true ∧
      ∀ j, j < n → 1 ≤ j → cellFilledAt values j col = true →
        j ≤ (List.range n).foldl
          (fun last i => if 1 ≤ i ∧ cellFilledAt values i col then i else last) 0) := by
  intro n
  induction n with
  | zero =>
    left
    exact ⟨rfl, fun j h1 h2 => by omega⟩
  | succ n ih =>
    rw [List.range_succ, List.foldl_append]
    simp only [List.foldl_cons, List.foldl_nil]
    by_cases hc : 1 ≤ n ∧ cellFilledAt values n col = true
    · right
      rw [if_pos hc]
      exact ⟨hc.1, hc.2, fun j hj _ _ => by omega⟩
    · rw [if_neg hc]
      rcases ih with ⟨hL, hall⟩ | ⟨h1, hf, hmax⟩
      · left
        refine ⟨hL, fun j hj1 hjn => ?_⟩
        by_cases hjn' : j < n
        · exact hall j hj1 hjn'
        · have hje : j = n := by omega
          subst hje
          rcases not_and_or.mp hc with hx | hx
          · omega
          · exact Bool.not_eq_true _ ▸ (eq_false_of_ne_true hx)
      · right
        refine ⟨h1, hf, fun j hjn hj1 hfj => ?_⟩
        by_cases hjn' : j < n
        · exact hmax j hjn' hj1 hfj
        · have hje : j = n := by omega
          subst hje
          exact absurd ⟨hj1, hfj⟩ hc

/-- The `lastRow` loop computes the greatest data-row index holding a
    non-empty, non-null value (a last-non-empty-wins scan: an empty cell
    between filled cells does not reset it), or 0 when no data row is
    filled. -/
theorem lastFilledIndex_spec (values : Grid) (col : Nat) :
    (lastFilledIndex values col = 0 ∧ ∀ j, 1 ≤ j → cellFilledAt values j col = false) ∨
    (1 ≤ lastFilledIndex values col ∧
      cellFilledAt values (lastFilledIndex values col) col = true ∧
      ∀ j, cellFilledAt values j col = true → j ≤ lastFilledIndex values col) := by
  rcases foldl_lastFilled_spec values col values.length with ⟨hL, hall⟩ | ⟨h1, hf, hmax⟩
  · left
    refine ⟨hL, fun j hj1 => ?_⟩
    by_cases hjl : j < values.length
    · exact hall j hj1 hjl
    · exact cellFilledAt_ge_length values col j (by omega)
  · right
    refine ⟨h1, hf, fun j hfj => ?_⟩
    rcases Nat.eq_zero_or_pos j with rfl | hj1
    · omega
    · by_cases hjl : j < values.length
      · exact hmax j hjl hj1 hfj
      · rw [cellFilledAt_ge_length values col j (by omega)] at hfj
        exact absurd hfj (by simp)

/- ---------------- basic lemmas: address strings ---------------- -/

theorem takeWhile_eq_nil_of_all {α : Type} (p : α → Bool) (l : List α)
    (h : ∀ c ∈ l, p c = false) : l.takeWhile p = [] := by
  cases l with
  | nil => rfl
  | cons a t => exact takeWhile_nil_of_head p a t (h a (by simp))

theorem mk_append_data (l1 l2 : List Char) :
    ((⟨l1⟩ : String) ++ (⟨l2⟩ : String)).data = l1 ++ l2 := rfl

/-- Validity of a single-letter-plus-row address: it passes the
    `^[A-Z]+[0-9]+$` grammar exactly when the letter is an uppercase
    letter. -/
theorem isValidAddr_single_letter (c : Char) (m : Nat) :
    isValidAddr ((⟨[c]⟩ : String) ++ natToString m) = isUpperAlpha c := by
  have hdata : (((⟨[c]⟩ : String) ++ natToString m)).data = c :: natToChars m :=
    mk_append_data [c] (natToChars m)
  unfold isValidAddr
  rw [hdata]
  cases hu : isUpperAlpha c with
  | false =>
    rw [takeWhile_nil_of_head _ _ _ hu]
    simp
  | true =>
    rw [List.takeWhile_cons, if_pos hu,
      takeWhile_eq_nil_of_all _ _
        (fun x hx => not_upper_of_digit x (natToChars_digits m x hx))]
    have hne : natToChars m ≠ [] := natToChars_ne_nil m
    simp only [List.length_cons, List.length_nil, Nat.zero_add, List.drop_succ_cons,
      List.drop_zero, List.isEmpty_cons, Bool.not_false, Bool.true_and]
    rw [List.all_eq_true.mpr (natToChars_digits m)]
    simp [List.isEmpty_iff, hne]

/- ---------------- shared helper lemmas about writeResult ---------------- -/

theorem writeResult_eq_cases (note : String) (ns : Bool) (ca : Option String) (ow : Bool)
    (wb : Workbook) (hv : isValidAddr (writeAddr ca) = true) :
    writeResult note ns ca ow wb =
      if isFilled (targetCellOf ca ns wb) && !ow then
        Except.error ("Cell " ++ writeAddr ca ++ " already contains data.",
          wbAfterSheetChoice wb ns)
      else
        Except.ok (setGridAt (wbAfterSheetChoice wb ns) (writeTargetIdx wb ns)
          (setCell (gridAt (wbAfterSheetChoice wb ns) (writeTargetIdx wb ns))
            (addrRow (writeAddr ca) - 1) (addrCol (writeAddr ca)) (extractedVal note))) := by
  unfold writeResult
  dsimp only
  rw [if_pos hv]
  rfl

/-- A freshly minted results sheet starts with an empty used range. -/
theorem gridAt_after_new (wb : Workbook) :
    gridAt (wbAfterSheetChoice wb true) (writeTargetIdx wb true) = [] := by
  unfold wbAfterSheetChoice writeTargetIdx addSheet gridAt
  simp

/- ---------------- C1 ---------------- -/

/-- C1: for every `writeResult` call with a valid target address, if the
    target cell is occupied (neither null nor empty) and the overwrite flag
    is false, the call throws `Cell <addr> already contains data.` and the
    workbook is returned unchanged (no write happens; for a new-sheet call
    the target cell is the fresh sheet's A1-area cell and is never
    occupied); with overwrite true or an unoccupied target the write
    proceeds and stores the extracted value. -/
theorem claim_C1_writeResult_guard (note : String) (ns : Bool) (ca : Option String)
    (ow : Bool) (wb : Workbook) (hv : isValidAddr (writeAddr ca) = true) :
    (ns = true → isFilled (targetCellOf ca ns wb) = false) ∧
    (isFilled (targetCellOf ca ns wb) = true → ow = false → ns = false →
      writeResult note ns ca ow wb =
        Except.error ("Cell " ++ writeAddr ca ++ " already contains data.", wb)) ∧
    (isFilled (targetCellOf ca ns wb) = false ∨ ow = true →
      writeResult note ns ca ow wb =
        Except.ok (setGridAt (wbAfterSheetChoice wb ns) (writeTargetIdx wb ns)
          (setCell (gridAt (wbAfterSheetChoice wb ns) (writeTargetIdx wb ns))
            (addrRow (writeAddr ca) - 1) (addrCol (writeAddr ca)) (extractedVal note)))) := by
  refine ⟨?_, ?_, ?_⟩
  · intro hns
    subst hns
    unfold targetCellOf
    rw [gridAt_after_new]
    rfl
  · intro hf how hns
    subst hns
    subst how
    rw [writeResult_eq_cases note false ca false wb hv]
    rw [if_pos (by simp [hf])]
    rfl
  · intro h
    rw [writeResult_eq_cases note ns ca ow wb hv]
    rcases h with hf | how
    · rw [if_neg (by simp [hf])]
    · subst how
      rw [if_neg (by simp)]

/-- C1 witness: `writeResult` at occupied A1 without overwrite errors and
    leaves the sheet untouched; with overwrite it succeeds. -/
theorem claim_C1_witness :
    (writeResult "note text" false (some "A1") false
        { sheets := [("Sheet1", [[Val.vstr "x"]])] } =
      Except.error ("Cell A1 already contains data.",
        { sheets := [("Sheet1", [[Val.vstr "x"]])] })) ∧
    (writeResult "note text" false (some "A1") true
        { sheets := [("Sheet1", [[Val.vstr "x"]])] } =
      Except.ok { sheets := [("Sheet1", [[Val.vstr "note text"]])] }) :=
  ⟨(claim_C1_writeResult_guard "note text" false (some "A1") false
      { sheets := [("Sheet1", [[Val.vstr "x"]])] } (by decide)).2.1 (by decide) rfl rfl,
   (claim_C1_writeResult_guard "note text" false (some "A1") true
      { sheets := [("Sheet1", [[Val.vstr "x"]])] } (by decide)).2.2 (Or.inr rfl)⟩

/- ---------------- C2 ---------------- -/

/-- C2 (failing input): the horizontal upload merge computes its start
    column from the header row only; with header row `["A", ""]` over data
    row `["x", "y"]`, merging headers `["H"]` with one data row `["d"]`
    writes into column B and silently replaces the existing non-empty value
    `"y"` at B2 — no overwrite confirmation exists on this path. -/
theorem claim_C2_horizontal_merge_destroys :
    isFilled (readCell [[Val.vstr "A", Val.vstr ""], [Val.vstr "x", Val.vstr "y"]] 1 1) = true ∧
    readCell [[Val.vstr "A", Val.vstr ""], [Val.vstr "x", Val.vstr "y"]] 1 1 = Val.vstr "y" ∧
    readCell (appendUploadToActiveSheet ["H"] [[Val.vstr "d"]]
        [[Val.vstr "A", Val.vstr ""], [Val.vstr "x", Val.vstr "y"]]).1 1 1 = Val.vstr "d" ∧
    Val.vstr "d" ≠ Val.vstr "y" := by
  decide

/- ---------------- C4 ---------------- -/

/-- C4: while a pending result exists that is neither awaiting a cell nor
    awaiting an overwrite confirmation, any text input is rejected with the
    finish-placement message: no backend request is issued, the pending
    state, workbook and input box are unchanged. -/
theorem claim_C4_pending_blocks (p : PendingPlacement) (wb : Workbook) (input : String)
    (resp : Option BackendData) (hov : p.awaitingOverwrite = none)
    (hac : p.awaitingCell = false) :
    handleSend (some p) wb input resp =
      { pending := some p, wb := wb, messages := [aiMsg msgFinishPlacement],
        backendCalled := false, inputCleared := false } := by
  unfold handleSend
  dsimp only
  rw [hov, hac]
  rfl

/-- C4 witness: a concrete blocked send. -/
theorem claim_C4_witness :
    handleSend (some { note := "a result" }) { sheets := [("Sheet1", [])] } "sum sales" none =
      { pending := some { note := "a result" }, wb := { sheets := [("Sheet1", [])] },
        messages := [aiMsg msgFinishPlacement], backendCalled := false,
        inputCleared := false } :=
  claim_C4_pending_blocks { note := "a result" } { sheets := [("Sheet1", [])] }
    "sum sales" none rfl rfl

/- ---------------- C9 ---------------- -/

/-- C9 (counterexample): with no suggested column and A1 occupied, the
    Place action does NOT write unconditionally: the occupancy check inside
    `writeResult` throws, a failure message is pushed, no write happens
    (A1 keeps its value), and the pending slot is cleared. -/
theorem claim_C9_counterexample :
    isFilled (readCell (activeGrid { sheets := [("Sheet1", [[Val.vstr "x"]])] }) 0 0) = true ∧
    handlePlaceInExcelForChartOrBelow { note := "hello" }
        { sheets := [("Sheet1", [[Val.vstr "x"]])] } =
      { pending := none, wb := { sheets := [("Sheet1", [[Val.vstr "x"]])] },
        messages := [aiMsg "⚠️ Failed to place: Cell A1 already contains data."] } ∧
    readCell (activeGrid (handlePlaceInExcelForChartOrBelow { note := "hello" }
        { sheets := [("Sheet1", [[Val.vstr "x"]])] }).wb) 0 0 = Val.vstr "x" := by
  decide

/-- C9 (amended): with no chart and no suggested-column hint, the Place
    action routes the note through the occupancy-checked `writeResult` at
    A1: an empty/null A1 gets the extracted value and the placement
    terminates; an occupied A1 makes the write throw, a failure message is
    emitted (no overwrite prompt is offered on this path) and the pending
    slot is cleared without any write. -/
theorem claim_C9_no_hint (p : PendingPlacement) (wb : Workbook)
    (hch : p.chart = none) (hsc : p.suggestedColumn = none) :
    (isFilled (readCell (activeGrid wb) 0 0) = false →
      handlePlaceInExcelForChartOrBelow p wb =
        { pending := none,
          wb := setGridAt wb wb.active (setCell (activeGrid wb) 0 0 (extractedVal p.note)),
          messages := [aiMsg "✅ Result placed at A1 (fallback)."] }) ∧
    (isFilled (readCell (activeGrid wb) 0 0) = true →
      handlePlaceInExcelForChartOrBelow p wb =
        { pending := none, wb := wb,
          messages := [aiMsg "⚠️ Failed to place: Cell A1 already contains data."] }) := by
  have htc : targetCellOf (some "A1") false wb = readCell (activeGrid wb) 0 0 := rfl
  constructor
  · intro h
    have hw : writeResult p.note false (some "A1") false wb =
        Except.ok (setGridAt wb wb.active (setCell (activeGrid wb) 0 0 (extractedVal p.note))) := by
      rw [writeResult_eq_cases p.note false (some "A1") false wb (by decide)]
      rw [htc] at *
      rw [if_neg (by simp [h])]
      rfl
    unfold handlePlaceInExcelForChartOrBelow
    dsimp only
    rw [hch, hsc, hw]
  · intro h
    have hw : writeResult p.note false (some "A1") false wb =
        Except.error ("Cell A1 already contains data.", wb) := by
      rw [writeResult_eq_cases p.note false (some "A1") false wb (by decide)]
      rw [htc] at *
      rw [if_pos (by simp [h])]
      rfl
    unfold handlePlaceInExcelForChartOrBelow
    dsimp only
    rw [hch, hsc, hw]
    rfl

/-- C9 witness: empty A1 gets the note written. -/
theorem claim_C9_witness :
    handlePlaceInExcelForChartOrBelow { note := "hello" } { sheets := [("Sheet1", [])] } =
      { pending := none,
        wb := setGridAt { sheets := [("Sheet1", [])] } 0
          (setCell [] 0 0 (extractedVal "hello")),
        messages := [aiMsg "✅ Result placed at A1 (fallback)."] } :=
  (claim_C9_no_hint { note := "hello" } { sheets := [("Sheet1", [])] } rfl rfl).1 (by decide)

/- ---------------- C10 ---------------- -/

/-- C10: when the first header cell matching the hint sits at zero-based
    column index `i`, the returned address is the single character of code
    `65 + i` followed by the computed row digits, and that address passes
    the strict `[A-Z]+[0-9]+` address grammar exactly when `i ≤ 25` (for
    `i ≥ 26` the character is not an uppercase letter, e.g. `[` at 26). -/
theorem claim_C10_col_letter (hint : String) (values : Grid) (i : Nat)
    (hm : headerMatchIdx hint values = some i) (hbound : 65 + i < 55296) :
    (Char.ofNat (65 + i)).toNat = 65 + i ∧
    (findPlacementCell hint values).cellAddress =
      some ((⟨[Char.ofNat (65 + i)]⟩ : String) ++ natToString (lastFilledIndex values i + 2)) ∧
    (isValidAddr ((⟨[Char.ofNat (65 + i)]⟩ : String) ++
        natToString (lastFilledIndex values i + 2)) = true ↔ i ≤ 25) := by
  have hne : values ≠ [] := by
    intro h0
    rw [h0] at hm
    simp [headerMatchIdx] at hm
  have htoNat : (Char.ofNat (65 + i)).toNat = 65 + i := toNat_ofNat_valid _ hbound
  refine ⟨htoNat, ?_, ?_⟩
  · unfold findPlacementCell
    rw [if_neg (by simp [List.isEmpty_iff, hne])]
    rw [hm]
  · rw [isValidAddr_single_letter]
    unfold isUpperAlpha
    rw [htoNat]
    constructor
    · intro h
      simp only [Bool.and_eq_true, decide_eq_true_eq] at h
      omega
    · intro h
      simp only [Bool.and_eq_true, decide_eq_true_eq]
      omega

/-- C10 witness: a 27-column header matching at index 26 yields the
    malformed address starting with `[`. -/
theorem claim_C10_witness :
    (findPlacementCell "target"
        [List.replicate 26 (Val.vstr "") ++ [Val.vstr "Target"]]).cellAddress =
      some ((⟨[Char.ofNat (65 + 26)]⟩ : String) ++
        natToString (lastFilledIndex [List.replicate 26 (Val.vstr "") ++ [Val.vstr "Target"]] 26 + 2)) ∧
    (isValidAddr ((⟨[Char.ofNat (65 + 26)]⟩ : String) ++
        natToString (lastFilledIndex [List.replicate 26 (Val.vstr "") ++ [Val.vstr "Target"]] 26 + 2)) = true
      ↔ 26 ≤ 25) :=
  ⟨(claim_C10_col_letter "target" _ 26 (by decide) (by decide)).2.1,
   (claim_C10_col_letter "target" _ 26 (by decide) (by decide)).2.2⟩

/- ---------------- C6 ---------------- -/

/-- C6 (counterexample): with header `Sales` (row 1) and one value below it
    (row 2), the code returns `A3` — the row immediately below the last
    filled row — while the claim's formula (last non-empty 1-indexed row
    plus 2) demands `A4`. -/
theorem claim_C6_counterexample :
    headerMatchIdx "sales" [[Val.vstr "Sales"], [Val.vstr "10"]] = some 0 ∧
    claimedLastNonEmptyRow1 [[Val.vstr "Sales"], [Val.vstr "10"]] 0 = 2 ∧
    (findPlacementCell "sales" [[Val.vstr "Sales"], [Val.vstr "10"]]).cellAddress = some "A3" ∧
    ("A3" : String) ≠
      (⟨[Char.ofNat (65 + 0)]⟩ : String) ++
        natToString (claimedLastNonEmptyRow1 [[Val.vstr "Sales"], [Val.vstr "10"]] 0 + 2) := by
  decide

/-- C6 (amended): when the header row matches the hint at column `i`,
    `findPlacementCell` returns a found result whose address row is
    `L + 2` where `L` is the zero-based index (header row = 0) of the last
    data row holding a non-empty, non-null value — a last-non-empty-wins
    scan over the whole column (an empty cell between filled cells does not
    reset it), `L = 0` when no data row is filled.  In 1-indexed terms the
    destination is the row immediately below the last filled row, not two
    past it. -/
theorem claim_C6_row_formula (hint : String) (values : Grid) (i : Nat)
    (hm : headerMatchIdx hint values = some i) :
    (findPlacementCell hint values).found = true ∧
    (findPlacementCell hint values).cellAddress =
      some ((⟨[Char.ofNat (65 + i)]⟩ : String) ++ natToString (lastFilledIndex values i + 2)) ∧
    ((∀ j, 1 ≤ j → cellFilledAt values j i = false) → lastFilledIndex values i = 0) ∧
    ((∃ j, 1 ≤ j ∧ cellFilledAt values j i = true) →
      1 ≤ lastFilledIndex values i ∧
      cellFilledAt values (lastFilledIndex values i) i = true ∧
      ∀ j, cellFilledAt values j i = true → j ≤ lastFilledIndex values i) := by
  have hne : values ≠ [] := by
    intro h0
    rw [h0] at hm
    simp [headerMatchIdx] at hm
  refine ⟨?_, ?_, ?_, ?_⟩
  · unfold findPlacementCell
    rw [if_neg (by simp [List.isEmpty_iff, hne])]
    rw [hm]
  · unfold findPlacementCell
    rw [if_neg (by simp [List.isEmpty_iff, hne])]
    rw [hm]
  · intro hall
    rcases lastFilledIndex_spec values i with ⟨hL, _⟩ | ⟨h1, hf, _⟩
    · exact hL
    · rw [hall (lastFilledIndex values i) h1] at hf
      exact absurd hf (by simp)
  · intro ⟨j, hj1, hjf⟩
    rcases lastFilledIndex_spec values i with ⟨_, hall⟩ | ⟨h1, hf, hmax⟩
    · rw [hall j hj1] at hjf
      exact absurd hjf (by simp)
    · exact ⟨h1, hf, hmax⟩

/-- C6 witness: a column with a gap — values in data rows 1 and 3
    (zero-based), empty row 2 between them — still targets row
    `3 + 2 = 5`. -/
theorem claim_C6_witness :
    (findPlacementCell "sales"
        [[Val.vstr "Sales"], [Val.vnum 1], [Val.vstr ""], [Val.vnum 2]]).found = true ∧
    (findPlacementCell "sales"
        [[Val.vstr "Sales"], [Val.vnum 1], [Val.vstr ""], [Val.vnum 2]]).cellAddress =
      some ((⟨[Char.ofNat (65 + 0)]⟩ : String) ++
        natToString (lastFilledIndex
          [[Val.vstr "Sales"], [Val.vnum 1], [Val.vstr ""], [Val.vnum 2]] 0 + 2)) :=
  ⟨(claim_C6_row_formula "sales"
      [[Val.vstr "Sales"], [Val.vnum 1], [Val.vstr ""], [Val.vnum 2]] 0 (by decide)).1,
   (claim_C6_row_formula "sales"
      [[Val.vstr "Sales"], [Val.vnum 1], [Val.vstr ""], [Val.vnum 2]] 0 (by decide)).2.1⟩

/- ---------------- C3 ---------------- -/

/-- C3 (counterexample): the input is compared after `trim()`, so the text
    `" overwrite "` — which is NOT case-insensitively equal to `overwrite`
    nor to `overwrite a1` — still commits the deferred write and clears the
    pending state, contradicting the claim's `any other input leaves the
    state unchanged`. -/
theorem claim_C3_counterexample :
    jsToLower " overwrite " ≠ "overwrite" ∧
    jsToLower " overwrite " ≠ "overwrite " ++ jsToLower "A1" ∧
    (handleSend (some { note := "res", awaitingOverwrite := some { addr := "A1" } })
        { sheets := [("Sheet1", [])] } " overwrite " none).pending = none ∧
    readCell (activeGrid (handleSend
        (some { note := "res", awaitingOverwrite := some { addr := "A1" } })
        { sheets := [("Sheet1", [])] } " overwrite " none).wb) 0 0 = Val.vstr "res" := by
  decide

/-- C3 (amended): while `awaitingOverwrite` holds address `addr` for a
    non-chart pending result (with a well-formed address), an input whose
    TRIMMED text is case-insensitively `overwrite` or `overwrite addr`
    commits the deferred write with the overwrite flag forced true and
    clears the pending slot; any other input leaves the pending state and
    workbook unchanged and re-emits the confirmation prompt. -/
theorem claim_C3_overwrite_protocol (p : PendingPlacement) (o : OverwriteInfo)
    (wb : Workbook) (input : String) (resp : Option BackendData)
    (ho : p.awaitingOverwrite = some o) (hch : p.chart = none)
    (hne : o.addr ≠ "") (hv : isValidAddr (jsToUpper o.addr) = true) :
    ((jsToLower (jsTrim input) = "overwrite" ∨
        jsToLower (jsTrim input) = "overwrite " ++ jsToLower o.addr) →
      handleSend (some p) wb input resp =
        { pending := none,
          wb := setGridAt wb wb.active (setCell (activeGrid wb)
            (addrRow (jsToUpper o.addr) - 1) (addrCol (jsToUpper o.addr))
            (extractedVal p.note)),
          messages := [aiMsg ("✅ Overwrote and placed result at " ++ o.addr ++ ".")],
          backendCalled := false, inputCleared := true }) ∧
    (jsToLower (jsTrim input) ≠ "overwrite" →
      jsToLower (jsTrim input) ≠ "overwrite " ++ jsToLower o.addr →
      handleSend (some p) wb input resp =
        { pending := some p, wb := wb, messages := [aiMsg msgOverwriteReprompt],
          backendCalled := false, inputCleared := true }) := by
  have haddr : writeAddr (some o.addr) = jsToUpper o.addr := by
    unfold writeAddr
    dsimp only
    rw [if_neg hne]
  have hv' : isValidAddr (writeAddr (some o.addr)) = true := by rw [haddr]; exact hv
  constructor
  · intro h
    have hcond : (decide (jsToLower (jsTrim input) = "overwrite") ||
        decide (jsToLower (jsTrim input) = "overwrite " ++ jsToLower o.addr)) = true := by
      rcases h with h | h <;> simp [h]
    have hw : writeResult p.note false (some o.addr) true wb =
        Except.ok (setGridAt wb wb.active (setCell (activeGrid wb)
          (addrRow (jsToUpper o.addr) - 1) (addrCol (jsToUpper o.addr))
          (extractedVal p.note))) := by
      rw [writeResult_eq_cases p.note false (some o.addr) true wb hv']
      rw [if_neg (by simp)]
      rw [haddr]
      rfl
    simp only [handleSend, ho, hch, hcond, hw, if_true]
  · intro h1 h2
    have hcond : (decide (jsToLower (jsTrim input) = "overwrite") ||
        decide (jsToLower (jsTrim input) = "overwrite " ++ jsToLower o.addr)) = false := by
      simp [h1, h2]
    simp only [handleSend, ho, hcond, if_false, Bool.false_eq_true]

/-- C3 witness: `OVERWRITE A1` (then lower-cased) commits; `nope` re-emits
    the prompt and keeps the state. -/
theorem claim_C3_witness :
    (handleSend (some { note := "res", awaitingOverwrite := some { addr := "A1" } })
        { sheets := [("Sheet1", [])] } "OVERWRITE A1" none =
      { pending := none,
        wb := setGridAt { sheets := [("Sheet1", [])] } 0 (setCell [] 0 0 (extractedVal "res")),
        messages := [aiMsg "✅ Overwrote and placed result at A1."],
        backendCalled := false, inputCleared := true }) ∧
    (handleSend (some { note := "res", awaitingOverwrite := some { addr := "A1" } })
        { sheets := [("Sheet1", [])] } "nope" none =
      { pending := some { note := "res", awaitingOverwrite := some { addr := "A1" } },
        wb := { sheets := [("Sheet1", [])] }, messages := [aiMsg msgOverwriteReprompt],
        backendCalled := false, inputCleared := true }) :=
  ⟨(claim_C3_overwrite_protocol { note := "res", awaitingOverwrite := some { addr := "A1" } }
      { addr := "A1" } { sheets := [("Sheet1", [])] } "OVERWRITE A1" none
      rfl rfl (by decide) (by decide)).1 (Or.inr (by decide)),
   (claim_C3_overwrite_protocol { note := "res", awaitingOverwrite := some { addr := "A1" } }
      { addr := "A1" } { sheets := [("Sheet1", [])] } "nope" none
      rfl rfl (by decide) (by decide)).2 (by decide) (by decide)⟩

/- ---------------- C7 ---------------- -/

/-- C7: the note `Sum: 42.5 units` placed through the specific-cell path
    stores the number 42.5 (the first signed-decimal substring, parsed),
    a note with no numeric substring is stored verbatim as text, and the
    same note appended to an existing results sheet is stored as the
    cleaned full text — the two paths differ. -/
theorem claim_C7_value_asymmetry :
    ((handleSend (some { note := "Sum: 42.5 units", awaitingCell := true })
        { sheets := [("Sheet1", [])] } "B2" none).pending = none ∧
      readCell (activeGrid (handleSend
          (some { note := "Sum: 42.5 units", awaitingCell := true })
          { sheets := [("Sheet1", [])] } "B2" none).wb) 1 1 = Val.vnum 42.5) ∧
    readCell (gridOfName (handlePlaceOnResultsSheet { note := "Sum: 42.5 units" } false
        { sheets := [("Sheet1", []), ("AI_Results_1", [])] }).wb "AI_Results_1") 0 0 =
      Val.vstr "Sum: 42.5 units" ∧
    (∀ note : String, firstNumMatch note = none →
      (writeResult note false (some "B2") false { sheets := [("Sheet1", [])] }).map
          (fun wb' => readCell (activeGrid wb') 1 1) = Except.ok (Val.vstr note)) := by
  refine ⟨⟨by decide, ?_⟩, by decide, ?_⟩
  · have h1 : readCell (activeGrid (handleSend
        (some { note := "Sum: 42.5 units", awaitingCell := true })
        { sheets := [("Sheet1", [])] } "B2" none).wb) 1 1 =
        Val.vnum (parseDecimal ['4', '2', '.', '5']) := rfl
    have h2 : parseDecimal ['4', '2', '.', '5'] = mkRat 425 10 := rfl
    have h3 : mkRat 425 10 = (42.5 : Rat) := by
      rw [Rat.mkRat_eq_div]
      norm_num
    rw [h1, h2, h3]
  · intro note h
    have hw : writeResult note false (some "B2") false { sheets := [("Sheet1", [])] } =
        Except.ok (setGridAt { sheets := [("Sheet1", [])] } 0
          (setCell [] 1 1 (extractedVal note))) := by
      rw [writeResult_eq_cases note false (some "B2") false
        { sheets := [("Sheet1", [])] } (by decide)]
      rfl
    rw [hw]
    have hrc : readCell (setCell [] 1 1 (extractedVal note)) 1 1 = extractedVal note := rfl
    show Except.ok (readCell (setCell [] 1 1 (extractedVal note)) 1 1) =
      Except.ok (Val.vstr note)
    rw [hrc]
    unfold extractedVal
    rw [h]

/-- C7 witness: a numeric-free note is stored verbatim by the
    specific-cell write. -/
theorem claim_C7_witness :
    (writeResult "no numeric content" false (some "B2") false
        { sheets := [("Sheet1", [])] }).map
      (fun wb' => readCell (activeGrid wb') 1 1) = Except.ok (Val.vstr "no numeric content") :=
  claim_C7_value_asymmetry.2.2 "no numeric content" (by decide)

/- ---------------- C8 ---------------- -/

/-- C8 (counterexample): the create-new results-sheet variant of a
    non-chart placement does NOT write the cleaned text: it delegates to
    `writeResult`, which extracts the first numeric substring, so the fresh
    sheet's A1 holds the number 42.5 rather than the cleaned note text. -/
theorem claim_C8_counterexample :
    readCell (gridOfName (handlePlaceOnResultsSheet { note := "Sum: 42.5 units" } true
        { sheets := [("Sheet1", [])] }).wb "AI_Results_1") 0 0 = Val.vnum 42.5 ∧
    cleanNote "Sum: 42.5 units" = "Sum: 42.5 units" ∧
    Val.vnum 42.5 ≠ Val.vstr (cleanNote "Sum: 42.5 units") := by
  refine ⟨?_, by decide, by decide⟩
  have h1 : readCell (gridOfName (handlePlaceOnResultsSheet { note := "Sum: 42.5 units" } true
      { sheets := [("Sheet1", [])] }).wb "AI_Results_1") 0 0 =
      Val.vnum (parseDecimal ['4', '2', '.', '5']) := rfl
  have h2 : parseDecimal ['4', '2', '.', '5'] = mkRat 425 10 := rfl
  have h3 : mkRat 425 10 = (42.5 : Rat) := by
    rw [Rat.mkRat_eq_div]
    norm_num
  rw [h1, h2, h3]

/-- C8 (amended): only the append-to-an-EXISTING-results-sheet variant of a
    non-chart placement writes the note cleaned of leading symbols with
    newlines collapsed, as a single text value, with no numeric extraction
    and no occupancy check, at row (existing row count) + 1, column A; the
    create-new variant (and the append variant when no results sheet
    exists) instead delegates to `writeResult(note, true, "A1")`, which
    extracts the first numeric substring. -/
theorem claim_C8_results_append (p : PendingPlacement) (wb : Workbook) (target : String)
    (hch : p.chart = none)
    (hms : (jsSortStrings ((sheetNames wb).filter
        (fun n => jsStartsWith n "AI_Results"))).getLast? = some target) :
    handlePlaceOnResultsSheet p false wb =
      { pending := none,
        wb := setGridOfName wb target (setCell (gridOfName wb target)
          (gridOfName wb target).length 0 (Val.vstr (cleanNote p.note))),
        messages := [aiMsg ("✅ Result appended to " ++ target ++ " at " ++
          ("A" ++ natToString ((gridOfName wb target).length + 1)))] } := by
  have hmsne : ((sheetNames wb).filter (fun n => jsStartsWith n "AI_Results")).isEmpty
      = false := by
    cases hcase : (sheetNames wb).filter (fun n => jsStartsWith n "AI_Results") with
    | nil =>
      rw [hcase] at hms
      simp [jsSortStrings] at hms
    | cons a t => simp [hcase]
  unfold handlePlaceOnResultsSheet
  dsimp only
  rw [hmsne, hms]
  rw [hch]
  rfl

/-- C8 witness: appending to an existing, non-empty results sheet lands at
    row 2 (row count 1 + 1) column A with the cleaned text, over whatever
    was there. -/
theorem claim_C8_witness :
    handlePlaceOnResultsSheet { note := "✅ ok done" } false
        { sheets := [("Sheet1", []), ("AI_Results_1", [[Val.vstr "old"]])] } =
      { pending := none,
        wb := setGridOfName { sheets := [("Sheet1", []), ("AI_Results_1", [[Val.vstr "old"]])] }
          "AI_Results_1" (setCell [[Val.vstr "old"]] 1 0 (Val.vstr (cleanNote "✅ ok done"))),
        messages := [aiMsg ("✅ Result appended to AI_Results_1 at " ++
          ("A" ++ natToString 2))] } :=
  claim_C8_results_append { note := "✅ ok done" }
    { sheets := [("Sheet1", []), ("AI_Results_1", [[Val.vstr "old"]])] }
    "AI_Results_1" rfl (by decide)

/- ---------------- C5 ---------------- -/

/-- C5: the minted results-sheet name is `AI_Results_1` when no sheet name
    matches the `AI_Results` prefix; when matches exist and every match has
    the well-formed shape `AI_Results_<digits>`, the minted name is
    `AI_Results_<M+1>` for `M` the maximum numeric suffix among the
    matches; in particular `AI_Results_1`, `AI_Results_3`, `Other` mint
    `AI_Results_4`. -/
theorem claim_C5_sheet_naming :
    (∀ names : List String,
      names.filter (fun n => jsStartsWith n "AI_Results") = [] →
        nextResultsName names = "AI_Results_1") ∧
    (∀ names : List String,
      names.filter (fun n => jsStartsWith n "AI_Results") ≠ [] →
      (∀ m ∈ names.filter (fun n => jsStartsWith n "AI_Results"),
        ∃ k : Nat, m = "AI_Results_" ++ natToString k) →
      ∃ M : Nat,
        ("AI_Results_" ++ natToString M) ∈
          names.filter (fun n => jsStartsWith n "AI_Results") ∧
        (∀ m ∈ names.filter (fun n => jsStartsWith n "AI_Results"),
          ∀ k : Nat, m = "AI_Results_" ++ natToString k → k ≤ M) ∧
        nextResultsName names = "AI_Results_" ++ natToString (M + 1)) ∧
    nextResultsName ["AI_Results_1", "AI_Results_3", "Other"] = "AI_Results_4" := by
  refine ⟨?_, ?_, by decide⟩
  · intro names h
    unfold nextResultsName
    dsimp only
    rw [h]
    rfl
  · intro names hne hfmt
    obtain ⟨h0, t0, hcons⟩ := List.exists_cons_of_ne_nil hne
    have hmap : (names.filter (fun n => jsStartsWith n "AI_Results")).map suffixNumOf
        = suffixNumOf h0 :: t0.map suffixNumOf := by
      rw [hcons]
      rfl
    have hmem : (t0.map suffixNumOf).foldl max (suffixNumOf h0) ∈
        (names.filter (fun n => jsStartsWith n "AI_Results")).map suffixNumOf := by
      rw [hmap]
      exact foldl_max_mem _ _
    obtain ⟨m, hmms, hmval⟩ := List.mem_map.mp hmem
    obtain ⟨k, hk⟩ := hfmt m hmms
    have hsuf : suffixNumOf m = (k : Int) := by
      rw [hk]
      exact suffixNumOf_format k
    have hMi : (t0.map suffixNumOf).foldl max (suffixNumOf h0) = (k : Int) := by
      rw [← hmval, hsuf]
    refine ⟨k, ?_, ?_, ?_⟩
    · rw [← hk]
      exact hmms
    · intro m' hm' k' hk'
      have hsuf' : suffixNumOf m' = (k' : Int) := by
        rw [hk']
        exact suffixNumOf_format k'
      have hmem' : (k' : Int) ∈ suffixNumOf h0 :: t0.map suffixNumOf := by
        rw [← hmap, ← hsuf']
        exact List.mem_map_of_mem _ hm'
      have hle : (k' : Int) ≤ (t0.map suffixNumOf).foldl max (suffixNumOf h0) :=
        le_foldl_max _ _ _ hmem'
      rw [hMi] at hle
      exact_mod_cast hle
    · unfold nextResultsName
      dsimp only
      rw [hcons]
      rw [if_pos (by simp)]
      have hmap2 : (h0 :: t0).map suffixNumOf = suffixNumOf h0 :: t0.map suffixNumOf := rfl
      rw [hmap2]
      dsimp only
      rw [hMi]
      have hc1 : (k : Int) + 1 = ((k + 1 : Nat) : Int) := by push_cast; ring
      rw [hc1, intToString_natCast]

/-- C5 witness: with no matching sheet name the minted name is
    `AI_Results_1`. -/
theorem claim_C5_witness :
    nextResultsName ["Sheet1", "Other"] = "AI_Results_1" :=
  claim_C5_sheet_naming.1 ["Sheet1", "Other"] (by decide)

end ExcelAI
